import Mathlib

/-!
Verification development for the 10xCapesDeck media-delivery front end.

The TypeScript sources are embedded shallowly:
* strings are modelled as `List Char` (`Str`), so that concatenation and
  normalisation proofs proceed by list induction;
* the Bunny CDN URL builder (`src/src/lib/bunny-cdn.ts`) becomes a pure
  function over an explicit environment record (`import.meta.env` is a
  lookup function);
* the singleton intersection-observer registry
  (`src/src/lib/intersection-observer.ts`) becomes a state machine whose
  dispatches return the list of callback invocations they perform;
* the `LazyVideo` component variants (`src/src/components/LazyVideo.tsx`,
  the canonical second variant in that file, and the earlier variant in
  `src/unnamed/part_000`) are embedded as event-step functions over the
  component's React state, with host-media effects reified as action lists;
* the hash synchroniser (`src/src/lib/hash-scroll.ts`) is embedded at the
  URL-update step, with history operations reified as actions.
-/

/-- Strings of the embedded program, modelled as lists of characters. -/
abbrev Str := List Char

namespace BunnyCdn

/-- `url.replace(/\/$/, '')` from `src/src/lib/bunny-cdn.ts` lines 21/35:
drops a single trailing slash when one is present. -/
def stripTrailingSlash (s : Str) : Str :=
  if s.getLast? = some '/' then s.dropLast else s

/-- The environment key transform of `getCdnUrl` (line 18):
`pullZone.toUpperCase().replace(/[^A-Z0-9]/g, '_')` prefixed with
`PUBLIC_BUNNY_CDN_URL_`. -/
def envKeyFor (z : Str) : Str :=
  ("PUBLIC_BUNNY_CDN_URL_").data ++
    z.map (fun c =>
      let u := c.toUpper
      if ('A' ≤ u ∧ u ≤ 'Z') ∨ ('0' ≤ u ∧ u ≤ '9') then u else '_')

/-- `import.meta.env`, modelled as a total lookup; the empty string stands
for an unset (or empty, both falsy in JS) variable. -/
structure CdnEnv where
  lookup : Str → Str

/-- The default branch of `getCdnUrl` (lines 27-35): read
`PUBLIC_BUNNY_CDN_URL`; empty when unset, otherwise the value with one
trailing slash stripped. -/
def defaultCdnUrl (env : CdnEnv) : Str :=
  let url := env.lookup (("PUBLIC_BUNNY_CDN_URL").data)
  if url = [] then [] else stripTrailingSlash url

/-- `getCdnUrl` (lines 15-36): a truthy `pullZone` selects the named
variable when set, otherwise falls back to the default variable. -/
def getCdnUrl (env : CdnEnv) (pullZone : Option Str) : Str :=
  match pullZone with
  | some z =>
      if z = [] then defaultCdnUrl env
      else
        let url := env.lookup (envKeyFor z)
        if url ≠ [] then stripTrailingSlash url else defaultCdnUrl env
  | none => defaultCdnUrl env

/-- `BunnyImageOptions` (lines 39-45). Numeric options are integers here;
the claims under verification only concern integral values. -/
structure BunnyImageOptions where
  width : Option Int := none
  height : Option Int := none
  quality : Option Int := none
  aspectRatio : Option Str := none
  pullZone : Option Str := none

/-- The `width` validation predicate of `bunnyImage` (line 69):
`width !== undefined && width <= 0`. -/
def invalidWidth (o : BunnyImageOptions) : Bool :=
  match o.width with
  | some w => decide (w ≤ 0)
  | none => false

/-- The `height` validation predicate of `bunnyImage` (line 72). -/
def invalidHeight (o : BunnyImageOptions) : Bool :=
  match o.height with
  | some h => decide (h ≤ 0)
  | none => false

/-- The `quality` validation predicate of `bunnyImage` (line 75):
`quality !== undefined && (quality < 1 || quality > 100)`. -/
def invalidQuality (o : BunnyImageOptions) : Bool :=
  match o.quality with
  | some q => decide (q < 1 ∨ 100 < q)
  | none => false

/-- Decimal rendering of a JS number for `Number.prototype.toString`,
restricted to integers. -/
def intToStr (i : Int) : Str := (toString i).data

/-- UTF-8 bytes of a character, for URLSearchParams percent-encoding. -/
def utf8Bytes (c : Char) : List Nat :=
  let n := c.toNat
  if n < 0x80 then [n]
  else if n < 0x800 then
    [0xC0 ||| (n >>> 6), 0x80 ||| (n &&& 0x3F)]
  else if n < 0x10000 then
    [0xE0 ||| (n >>> 12), 0x80 ||| ((n >>> 6) &&& 0x3F), 0x80 ||| (n &&& 0x3F)]
  else
    [0xF0 ||| (n >>> 18), 0x80 ||| ((n >>> 12) &&& 0x3F),
      0x80 ||| ((n >>> 6) &&& 0x3F), 0x80 ||| (n &&& 0x3F)]

/-- Upper-case hexadecimal digit. -/
def hexDigit (n : Nat) : Char :=
  if n < 10 then Char.ofNat ('0'.toNat + n) else Char.ofNat ('A'.toNat + n - 10)

/-- `application/x-www-form-urlencoded` serialisation of one character, as
performed by `URLSearchParams.toString`. -/
def encodeChar (c : Char) : Str :=
  if c.isAlphanum ∨ c = '*' ∨ c = '-' ∨ c = '.' ∨ c = '_' then [c]
  else if c = ' ' then ['+']
  else ((utf8Bytes c).map (fun b => ['%', hexDigit (b / 16), hexDigit (b % 16)])).flatten

/-- Percent-encoding of a full string. -/
def urlEncode (s : Str) : Str := (s.map encodeChar).flatten

/-- `URLSearchParams.toString`: `key=value` pairs joined by `&`, each side
percent-encoded. -/
def paramsToString : List (Str × Str) → Str
  | [] => []
  | [p] => urlEncode p.1 ++ '=' :: urlEncode p.2
  | p :: rest => (urlEncode p.1 ++ '=' :: urlEncode p.2) ++ '&' :: paramsToString rest

/-- `if (width) params.set('width', width.toString())` (line 80). The JS
guard tests truthiness: a number is truthy exactly when it is non-zero. -/
def widthParam : Option Int → List (Str × Str)
  | some w => if w ≠ 0 then [(("width").data, intToStr w)] else []
  | none => []

/-- `if (height) params.set('height', height.toString())` (line 81). -/
def heightParam : Option Int → List (Str × Str)
  | some h => if h ≠ 0 then [(("height").data, intToStr h)] else []
  | none => []

/-- `if (quality) params.set('quality', quality.toString())` (line 82). -/
def qualityParam : Option Int → List (Str × Str)
  | some q => if q ≠ 0 then [(("quality").data, intToStr q)] else []
  | none => []

/-- `if (aspectRatio) params.set('aspect_ratio', aspectRatio)` (line 83);
a string is truthy exactly when it is non-empty. -/
def aspectParam : Option Str → List (Str × Str)
  | some a => if a ≠ [] then [(("aspect_ratio").data, a)] else []
  | none => []

/-- The parameter list built by `bunnyImage` (lines 79-83), in `set`
order. -/
def bunnyParams (o : BunnyImageOptions) : List (Str × Str) :=
  widthParam o.width ++ heightParam o.height ++ qualityParam o.quality ++
    aspectParam o.aspectRatio

/-- `bunnyImage` (lines 57-89). A thrown `Error` is an `Except.error`
carrying the message. Note the source order: the unconfigured-CDN early
return at line 60 precedes the validation block at lines 68-77. -/
def bunnyImage (env : CdnEnv) (path : Str) (o : BunnyImageOptions) : Except Str Str :=
  let cdnUrl := getCdnUrl env o.pullZone
  if cdnUrl = [] then Except.ok path
  else if invalidWidth o then Except.error (("Width must be a positive number").data)
  else if invalidHeight o then Except.error (("Height must be a positive number").data)
  else if invalidQuality o then Except.error (("Quality must be between 1 and 100").data)
  else
    let queryString := paramsToString (bunnyParams o)
    let cleanPath := if path.head? = some '/' then path else '/' :: path
    Except.ok
      (if queryString ≠ [] then cdnUrl ++ cleanPath ++ '?' :: queryString
       else cdnUrl ++ cleanPath)

/-- The query-string tail appended to the joined base and path. -/
def querySuffix (o : BunnyImageOptions) : Str :=
  let qs := paramsToString (bunnyParams o)
  if qs = [] then [] else '?' :: qs

/-- A `CdnEnv` with no variables set. -/
def emptyCdnEnv : CdnEnv := ⟨fun _ => []⟩

end BunnyCdn

namespace BunnyCdn

/-- Whether a call outcome is a thrown error. -/
def isError : Except Str Str → Bool
  | Except.error _ => true
  | Except.ok _ => false

/-- A configured environment: the default pull-zone variable is set. -/
def demoEnv : CdnEnv :=
  ⟨fun k => if k = ("PUBLIC_BUNNY_CDN_URL").data then ("https://cdn.example.net").data else []⟩

/-- A fully valid option set. -/
def demoOpts : BunnyImageOptions :=
  { width := some 1920, height := some 1080, quality := some 80,
    aspectRatio := some (("16:9").data), pullZone := none }

/-- C2 counterexample: with no CDN base URL configured, `bunnyImage`
returns the raw path before running any validation, so a call with the
invalid option `width = -5` signals no error and returns a URL with the
invalid value silently dropped — contradicting the claim that every call
with an invalid numeric option signals a validation error. -/
theorem bunnyImage_invalid_width_unconfigured_ok :
    bunnyImage emptyCdnEnv (("/a.jpg").data) { width := some (-5) } =
      Except.ok (("/a.jpg").data) := by
  rfl

/-- C2 (amended): when a CDN base URL resolves for the requested zone,
every call to `bunnyImage` with an invalid numeric option — width ≤ 0,
height ≤ 0, or quality outside [1,100] — throws a validation error and
returns no URL at all (in particular nothing clamped or dropped). -/
theorem bunnyImage_validates_when_configured (env : CdnEnv) (path : Str)
    (o : BunnyImageOptions)
    (hcdn : getCdnUrl env o.pullZone ≠ [])
    (hbad : invalidWidth o = true ∨ invalidHeight o = true ∨ invalidQuality o = true) :
    isError (bunnyImage env path o) = true := by
  by_cases hw : invalidWidth o
  · simp [bunnyImage, isError, hcdn, hw]
  · by_cases hh : invalidHeight o
    · simp [bunnyImage, isError, hcdn, hw, hh]
    · by_cases hq : invalidQuality o
      · simp [bunnyImage, isError, hcdn, hw, hh, hq]
      · simp [hw, hh, hq] at hbad

/-- C2 witness: a configured environment and `width = 0` make the call
throw. -/
theorem bunnyImage_validates_when_configured_witness :
    getCdnUrl demoEnv none ≠ [] ∧
      isError (bunnyImage demoEnv (("/a.jpg").data) { width := some 0 }) = true :=
  ⟨by decide,
    bunnyImage_validates_when_configured demoEnv (("/a.jpg").data) { width := some 0 }
      (by decide) (Or.inl (by decide))⟩

end BunnyCdn


namespace BunnyCdn

/-- A strictly positive integer is non-zero (JS truthiness of a validated
width). -/
theorem pos_of_not_le {w : Int} (hw : ¬ w ≤ 0) : w ≠ 0 := by omega

/-- A quality accepted by the validator is non-zero. -/
theorem quality_ne_zero {q : Int} (hq : ¬ (q < 1 ∨ 100 < q)) : q ≠ 0 := by omega

/-- The spec-side reading of "exactly the provided parameters": an entry
for a provided integer option, nothing for an absent one. -/
def optIntParam (k : Str) : Option Int → List (Str × Str)
  | some n => [(k, intToStr n)]
  | none => []

/-- The spec-side reading for a provided string option. -/
def optStrParam (k : Str) : Option Str → List (Str × Str)
  | some s => [(k, s)]
  | none => []

/-- C7: for every option set accepted by the validators (width > 0,
height > 0, quality in [1,100], optional non-empty aspect ratio) and a
configured CDN base URL, `bunnyImage` returns the base joined with the
normalised path and a query string whose parameter list is exactly the
provided options — no extra, clamped or dropped parameter — and, being a
pure function, re-invocation with the same inputs yields the identical
string. -/
theorem bunnyImage_exact_params (env : CdnEnv) (path : Str) (o : BunnyImageOptions)
    (hcdn : getCdnUrl env o.pullZone ≠ [])
    (hw : invalidWidth o = false) (hh : invalidHeight o = false)
    (hq : invalidQuality o = false)
    (ha : o.aspectRatio ≠ some []) :
    bunnyImage env path o =
      Except.ok (getCdnUrl env o.pullZone ++
        (if path.head? = some '/' then path else '/' :: path) ++ querySuffix o)
    ∧ bunnyParams o =
        optIntParam (("width").data) o.width ++
        optIntParam (("height").data) o.height ++
        optIntParam (("quality").data) o.quality ++
        optStrParam (("aspect_ratio").data) o.aspectRatio
    ∧ bunnyImage env path o = bunnyImage env path o := by
  refine ⟨?_, ?_, rfl⟩
  · simp only [bunnyImage, querySuffix]
    rw [if_neg hcdn]
    simp only [hw, hh, hq, Bool.false_eq_true, if_false]
    by_cases hqs : paramsToString (bunnyParams o) = [] <;>
      simp [hqs, List.append_assoc]
  · obtain ⟨w, h, q, a, z⟩ := o
    simp only [invalidWidth, invalidHeight, invalidQuality] at hw hh hq
    have e1 : widthParam w = optIntParam (("width").data) w := by
      cases w with
      | none => rfl
      | some w' =>
          simp only [decide_eq_false_iff_not] at hw
          simp [widthParam, optIntParam, pos_of_not_le hw]
    have e2 : heightParam h = optIntParam (("height").data) h := by
      cases h with
      | none => rfl
      | some h' =>
          simp only [decide_eq_false_iff_not] at hh
          simp [heightParam, optIntParam, pos_of_not_le hh]
    have e3 : qualityParam q = optIntParam (("quality").data) q := by
      cases q with
      | none => rfl
      | some q' =>
          simp only [decide_eq_false_iff_not] at hq
          simp [qualityParam, optIntParam, quality_ne_zero hq]
    have e4 : aspectParam a = optStrParam (("aspect_ratio").data) a := by
      cases a with
      | none => rfl
      | some a' =>
          have hne : a' ≠ [] := by
            intro hcon
            exact ha (by simp [hcon])
          simp [aspectParam, optStrParam, hne]
    simp [bunnyParams, e1, e2, e3, e4]

/-- C7 witness at a concrete configured environment and option set. -/
theorem bunnyImage_exact_params_witness :
    getCdnUrl demoEnv demoOpts.pullZone ≠ [] ∧
    (bunnyImage demoEnv (("/hero.jpg").data) demoOpts =
      Except.ok (getCdnUrl demoEnv demoOpts.pullZone ++
        (if (("/hero.jpg").data).head? = some '/' then (("/hero.jpg").data)
         else '/' :: (("/hero.jpg").data)) ++ querySuffix demoOpts)
    ∧ bunnyParams demoOpts =
        optIntParam (("width").data) demoOpts.width ++
        optIntParam (("height").data) demoOpts.height ++
        optIntParam (("quality").data) demoOpts.quality ++
        optStrParam (("aspect_ratio").data) demoOpts.aspectRatio
    ∧ bunnyImage demoEnv (("/hero.jpg").data) demoOpts =
        bunnyImage demoEnv (("/hero.jpg").data) demoOpts) :=
  ⟨by decide,
    bunnyImage_exact_params demoEnv (("/hero.jpg").data) demoOpts
      (by decide) (by decide) (by decide) (by decide) (by decide)⟩

end BunnyCdn

namespace BunnyCdn

/-- C10: with a CDN base URL configured for the requested zone and a valid
option set, `bunnyImage` on a path lacking a leading slash equals
`bunnyImage` on the slash-prefixed path; the output is the normalised base
joined to the slash-prefixed path by exactly the one inserted slash; and
the base normalisation applied by `getCdnUrl` strips exactly one trailing
slash from the configured value. -/
theorem bunnyImage_slash_normalisation (env : CdnEnv) (p : Str) (o : BunnyImageOptions)
    (hcdn : getCdnUrl env o.pullZone ≠ [])
    (hp : p.head? ≠ some '/')
    (hw : invalidWidth o = false) (hh : invalidHeight o = false)
    (hq : invalidQuality o = false) :
    bunnyImage env p o = bunnyImage env ('/' :: p) o
    ∧ bunnyImage env p o =
        Except.ok (getCdnUrl env o.pullZone ++ '/' :: (p ++ querySuffix o))
    ∧ (∀ t : Str, stripTrailingSlash (t ++ ['/']) = t)
    ∧ (∀ t : Str, t.getLast? ≠ some '/' → stripTrailingSlash t = t) := by
  refine ⟨?_, ?_, ?_, ?_⟩
  · simp only [bunnyImage]
    rw [if_neg hp]
    simp [hcdn]
  · simp only [bunnyImage, querySuffix]
    rw [if_neg hcdn]
    simp only [hw, hh, hq, Bool.false_eq_true, if_false]
    rw [if_neg hp]
    by_cases hqs : paramsToString (bunnyParams o) = [] <;>
      simp [hqs, List.append_assoc]
  · intro t
    simp [stripTrailingSlash]
  · intro t ht
    simp [stripTrailingSlash, ht]

/-- C10 witness: a path without a leading slash at the configured demo
environment. -/
theorem bunnyImage_slash_normalisation_witness :
    getCdnUrl demoEnv demoOpts.pullZone ≠ [] ∧
    (("hero.jpg").data).head? ≠ some '/' ∧
    (bunnyImage demoEnv (("hero.jpg").data) demoOpts =
        bunnyImage demoEnv ('/' :: ("hero.jpg").data) demoOpts
    ∧ bunnyImage demoEnv (("hero.jpg").data) demoOpts =
        Except.ok (getCdnUrl demoEnv demoOpts.pullZone ++
          '/' :: (("hero.jpg").data ++ querySuffix demoOpts))
    ∧ (∀ t : Str, stripTrailingSlash (t ++ ['/']) = t)
    ∧ (∀ t : Str, t.getLast? ≠ some '/' → stripTrailingSlash t = t)) :=
  ⟨by decide, by decide,
    bunnyImage_slash_normalisation demoEnv (("hero.jpg").data) demoOpts
      (by decide) (by decide) (by decide) (by decide) (by decide)⟩

end BunnyCdn

namespace LazyLoad

/-- An observed DOM element, identified by reference identity. -/
abbrev Elem := Nat

/-- A registered callback, identified by closure identity. -/
abbrev CbId := Nat

/-- The host environment: whether the `IntersectionObserver` constructor
exists. -/
structure HostEnv where
  ioAvailable : Bool

/-- State of `LazyLoadManager` (`src/src/lib/intersection-observer.ts`
lines 13-64): the lazily created underlying observer and the
`Map<Element, ObserverEntry>` of registrations, as an association list in
insertion order. -/
structure ManagerState where
  observer : Bool
  entries : List (Elem × CbId)

/-- The module-level singleton starts with no observer and no entries. -/
def mgrInitial : ManagerState := ⟨false, []⟩

/-- `Map.prototype.set`: replace the binding in place when the key exists,
append otherwise. -/
def mapSet : List (Elem × CbId) → Elem → CbId → List (Elem × CbId)
  | [], k, v => [(k, v)]
  | p :: rest, k, v => if p.1 = k then (k, v) :: rest else p :: mapSet rest k v

/-- `Map.prototype.get`. -/
def mapGet : List (Elem × CbId) → Elem → Option CbId
  | [], _ => none
  | p :: rest, k => if p.1 = k then some p.2 else mapGet rest k

/-- `Map.prototype.delete`; keys of a JS `Map` are unique, so removing
every binding of the key is the same operation. -/
def mapDelete (m : List (Elem × CbId)) (k : Elem) : List (Elem × CbId) :=
  m.filter (fun p => p.1 ≠ k)

/-- `createObserver` (lines 21-30): `new IntersectionObserver(...)` throws
when the constructor is unavailable in the host. -/
def createObserver (env : HostEnv) : Except Str Unit :=
  if env.ioAvailable then Except.ok ()
  else Except.error (("ReferenceError: IntersectionObserver is not defined").data)

/-- `observe` (lines 35-42): create the shared observer on first use (the
constructor exception propagates before any mutation), then store the
entry and start observing. -/
def observeOp (env : HostEnv) (s : ManagerState) (e : Elem) (cb : CbId) :
    Except Str ManagerState :=
  if s.observer then Except.ok { s with entries := mapSet s.entries e cb }
  else
    match createObserver env with
    | Except.ok _ => Except.ok { observer := true, entries := mapSet s.entries e cb }
    | Except.error msg => Except.error msg

/-- `unobserve` (lines 47-52): only acts when the underlying observer
exists. -/
def unobserveOp (s : ManagerState) (e : Elem) : ManagerState :=
  if s.observer then { s with entries := mapDelete s.entries e } else s

/-- `disconnect` (lines 57-63). -/
def disconnectOp (s : ManagerState) : ManagerState :=
  if s.observer then ⟨false, []⟩ else s

/-- One callback invocation performed by the dispatch loop: the reported
target, the callback that was stored for it, and the reported visibility. -/
abbrev MgrCall := Elem × CbId × Bool

/-- The observer callback of `createObserver` (lines 22-28): for each entry
of the reported batch, look the target up in the live map and invoke the
stored callback; targets with no current registration are skipped. The
registry state itself is not mutated. -/
def dispatchOp (s : ManagerState) (batch : List (Elem × Bool)) : List MgrCall :=
  batch.filterMap (fun er =>
    match mapGet s.entries er.1 with
    | some cb => some (er.1, cb, er.2)
    | none => none)

/-- Events the registry can receive after some point in time. -/
inductive MgrEvent where
  | observe (e : Elem) (cb : CbId)
  | unobserve (e : Elem)
  | disconnect
  | dispatch (batch : List (Elem × Bool))

/-- One registry step: the successor state and the callback invocations it
performs. A failed `observe` leaves the state unchanged (the exception
propagates to the caller before any mutation). -/
def mgrStep (env : HostEnv) (s : ManagerState) : MgrEvent → ManagerState × List MgrCall
  | MgrEvent.observe e cb =>
      match observeOp env s e cb with
      | Except.ok s' => (s', [])
      | Except.error _ => (s, [])
  | MgrEvent.unobserve e => (unobserveOp s e, [])
  | MgrEvent.disconnect => (disconnectOp s, [])
  | MgrEvent.dispatch batch => (s, dispatchOp s batch)

/-- Run a sequence of registry events, collecting every callback
invocation in order. -/
def mgrRun (env : HostEnv) (s : ManagerState) : List MgrEvent → ManagerState × List MgrCall
  | [] => (s, [])
  | ev :: rest =>
      let p := mgrStep env s ev
      let r := mgrRun env p.1 rest
      (r.1, p.2 ++ r.2)

/-- The registry invariant of C9: whenever the underlying observer is
absent, the registration map is empty. -/
def mgrInv (s : ManagerState) : Prop := s.observer = false → s.entries = []

end LazyLoad

namespace LazyLoad

/-- Setting a different key leaves a lookup unchanged. -/
theorem mapGet_mapSet_ne (m : List (Elem × CbId)) (k e : Elem) (cb : CbId)
    (h : e ≠ k) : mapGet (mapSet m k cb) e = mapGet m e := by
  induction m with
  | nil => simp [mapSet, mapGet, Ne.symm h]
  | cons p rest ih =>
      simp only [mapSet]
      by_cases hpk : p.1 = k
      · simp [hpk, mapGet, Ne.symm h]
      · by_cases hpe : p.1 = e <;> simp [hpk, hpe, mapGet, ih, h]

/-- Filtering can only remove bindings: an absent key stays absent. -/
theorem mapGet_filter_none (m : List (Elem × CbId)) (p : Elem × CbId → Bool)
    (e : Elem) (h : mapGet m e = none) : mapGet (m.filter p) e = none := by
  induction m with
  | nil => simp [mapGet]
  | cons q rest ih =>
      simp only [mapGet] at h
      by_cases hqe : q.1 = e
      · simp [hqe] at h
      · have h' : mapGet rest e = none := by simpa [hqe] using h
        simp only [List.filter_cons]
        cases hpq : p q with
        | true => simp [mapGet, hqe, ih h']
        | false => simpa using ih h'

/-- Deleting a key removes its binding. -/
theorem mapGet_mapDelete_self (m : List (Elem × CbId)) (e : Elem) :
    mapGet (mapDelete m e) e = none := by
  induction m with
  | nil => rfl
  | cons q rest ih =>
      simp only [mapDelete, List.filter_cons]
      by_cases hqe : q.1 = e
      · simpa [hqe, mapDelete] using ih
      · simpa [hqe, mapGet, mapDelete] using ih

/-- The dispatch loop performs no invocation for a target that has no
current registration. -/
theorem dispatch_skips_absent (s : ManagerState) (batch : List (Elem × Bool))
    (e : Elem) (h : mapGet s.entries e = none) :
    ∀ c ∈ dispatchOp s batch, c.1 ≠ e := by
  intro c hc
  simp only [dispatchOp, List.mem_filterMap] at hc
  obtain ⟨er, _, heq⟩ := hc
  cases hg : mapGet s.entries er.1 with
  | none => simp [hg] at heq
  | some cb =>
      simp only [hg] at heq
      obtain rfl := Option.some_injective _ heq
      intro hce
      rw [hce] at hg
      rw [h] at hg
      cases hg

/-- A step by any event other than re-observing `e` keeps `e` absent from
the registration map. -/
theorem mgrStep_absent (env : HostEnv) (s : ManagerState) (e : Elem) (ev : MgrEvent)
    (h : mapGet s.entries e = none)
    (hev : ∀ cb, ev ≠ MgrEvent.observe e cb) :
    mapGet ((mgrStep env s ev).1).entries e = none := by
  cases ev with
  | observe e' cb =>
      have hne : e ≠ e' := by
        intro hcon
        exact (hev cb) (by rw [hcon])
      simp only [mgrStep, observeOp]
      by_cases hobs : s.observer
      · simp [hobs, mapGet_mapSet_ne _ _ _ _ hne, h]
      · by_cases hio : env.ioAvailable
        · simp [hobs, createObserver, hio, mapGet_mapSet_ne _ _ _ _ hne, h]
        · simp [hobs, createObserver, hio, h]
  | unobserve e' =>
      by_cases hobs : s.observer
      · simpa [mgrStep, unobserveOp, hobs, mapDelete] using
          mapGet_filter_none s.entries _ e h
      · simpa [mgrStep, unobserveOp, hobs] using h
  | disconnect =>
      by_cases hobs : s.observer <;> simp [mgrStep, disconnectOp, hobs, h, mapGet]
  | dispatch batch => simpa [mgrStep] using h

/-- Along any event sequence that never re-observes `e` from a state where
`e` is unregistered, no invocation ever targets `e`, and `e` stays
unregistered. -/
theorem mgrRun_absent (env : HostEnv) (e : Elem) :
    ∀ (evs : List MgrEvent) (s : ManagerState),
    mapGet s.entries e = none →
    (∀ ev ∈ evs, ∀ cb, ev ≠ MgrEvent.observe e cb) →
    (∀ c ∈ (mgrRun env s evs).2, c.1 ≠ e) ∧
      mapGet ((mgrRun env s evs).1).entries e = none := by
  intro evs
  induction evs with
  | nil =>
      intro s h _
      exact ⟨by simp [mgrRun], h⟩
  | cons ev rest ih =>
      intro s h hev
      have h1 : mapGet ((mgrStep env s ev).1).entries e = none :=
        mgrStep_absent env s e ev h (hev ev (by simp))
      have h2 := ih (mgrStep env s ev).1 h1 (fun ev' hm => hev ev' (by simp [hm]))
      refine ⟨?_, h2.2⟩
      intro c hc
      simp only [mgrRun, List.mem_append] at hc
      rcases hc with hc | hc
      · cases ev with
        | dispatch batch =>
            exact dispatch_skips_absent s batch e h c (by simpa [mgrStep] using hc)
        | observe e' cb =>
            simp only [mgrStep] at hc
            cases hr : observeOp env s e' cb <;> simp [hr] at hc
        | unobserve e' => simp [mgrStep] at hc
        | disconnect => simp [mgrStep] at hc
      · exact h2.1 c hc

/-- From any state satisfying the registry invariant, `unobserve` leaves
its target unregistered. -/
theorem unobserve_absent (s : ManagerState) (e : Elem) (hinv : mgrInv s) :
    mapGet (unobserveOp s e).entries e = none := by
  by_cases hobs : s.observer
  · simpa [unobserveOp, hobs] using mapGet_mapDelete_self s.entries e
  · have hemp : s.entries = [] := hinv (by simpa using hobs)
    simp [unobserveOp, hobs, hemp, mapGet]

/-- C3: after `unobserve(e)` returns, no later registry activity — not
even a dispatch whose batch was captured while `e` was still registered
and still mentions `e` — invokes the callback stored for `e` (unless `e`
is observed anew); and the dispatch loop silently skips any reported
target that is not currently in the registration map. -/
theorem unobserve_no_further_calls (env : HostEnv) (s : ManagerState) (e : Elem)
    (evs : List MgrEvent)
    (hinv : mgrInv s)
    (hev : ∀ ev ∈ evs, ∀ cb, ev ≠ MgrEvent.observe e cb) :
    (∀ c ∈ (mgrRun env (unobserveOp s e) evs).2, c.1 ≠ e)
    ∧ (∀ (t : ManagerState) (batch : List (Elem × Bool)) (x : Elem),
        mapGet t.entries x = none → ∀ c ∈ dispatchOp t batch, c.1 ≠ x) := by
  refine ⟨?_, fun t batch x hx => dispatch_skips_absent t batch x hx⟩
  exact (mgrRun_absent env e evs (unobserveOp s e)
    (unobserve_absent s e hinv) hev).1

/-- C3 witness: a registered element `5` is unobserved; an in-flight batch
mentioning it, plus further traffic, never calls it back. -/
theorem unobserve_no_further_calls_witness :
    mgrInv ⟨true, [(5, 7), (6, 8)]⟩ ∧
    (∀ c ∈ (mgrRun ⟨true⟩ (unobserveOp ⟨true, [(5, 7), (6, 8)]⟩ 5)
        [MgrEvent.dispatch [(5, true), (6, false)], MgrEvent.unobserve 6,
          MgrEvent.disconnect]).2, c.1 ≠ 5)
    ∧ (∀ (t : ManagerState) (batch : List (Elem × Bool)) (x : Elem),
        mapGet t.entries x = none → ∀ c ∈ dispatchOp t batch, c.1 ≠ x) := by
  have hev : ∀ ev ∈ [MgrEvent.dispatch [(5, true), (6, false)],
      MgrEvent.unobserve 6, MgrEvent.disconnect], ∀ cb, ev ≠ MgrEvent.observe 5 cb := by
    intro ev hm cb
    simp only [List.mem_cons, List.not_mem_nil, or_false] at hm
    rcases hm with rfl | rfl | rfl <;> simp
  have h := unobserve_no_further_calls ⟨true⟩ ⟨true, [(5, 7), (6, 8)]⟩ 5
    [MgrEvent.dispatch [(5, true), (6, false)], MgrEvent.unobserve 6,
      MgrEvent.disconnect] (by simp [mgrInv]) hev
  exact ⟨by simp [mgrInv], h.1, h.2⟩

/-- C4 counterexample: with the `IntersectionObserver` constructor absent
from the host environment, the registry's `observe` throws the constructor
error instead of failing soft — there is no feature detection and no
always-visible fallback in `src/src/lib/intersection-observer.ts`. -/
theorem observe_throws_when_unavailable :
    observeOp ⟨false⟩ mgrInitial 0 0 =
      Except.error (("ReferenceError: IntersectionObserver is not defined").data) := by
  rfl

/-- C4 (amended): when the underlying mechanism is unavailable and no
observer exists yet, `observe` propagates the constructor failure and
registers nothing; when the mechanism is available (or an observer already
exists), `observe` never throws and stores the registration. -/
theorem observe_availability (env : HostEnv) (s : ManagerState) (e : Elem) (cb : CbId) :
    (env.ioAvailable = false → s.observer = false →
      observeOp env s e cb =
        Except.error (("ReferenceError: IntersectionObserver is not defined").data))
    ∧ (env.ioAvailable = true →
        observeOp env s e cb =
          Except.ok { observer := true, entries := mapSet s.entries e cb })
    ∧ (s.observer = true →
        observeOp env s e cb =
          Except.ok { observer := true, entries := mapSet s.entries e cb }) := by
  obtain ⟨so, se⟩ := s
  refine ⟨?_, ?_, ?_⟩
  · intro hio hobs
    simp only at hobs
    simp [observeOp, hobs, createObserver, hio]
  · intro hio
    by_cases hobs : so
    · simp [observeOp, hobs]
    · simp [observeOp, hobs, createObserver, hio]
  · intro hobs
    simp only at hobs
    simp [observeOp, hobs]

/-- C4 witness: with the mechanism available, the first `observe` succeeds
and registers the element. -/
theorem observe_availability_witness :
    observeOp ⟨true⟩ mgrInitial 0 0 =
      Except.ok { observer := true, entries := mapSet mgrInitial.entries 0 0 } :=
  (observe_availability ⟨true⟩ mgrInitial 0 0).2.1 rfl

/-- C9: the initial registry state satisfies the invariant "no underlying
observer implies an empty registration map", and every registry operation
(observe, unobserve, disconnect, dispatch) preserves it from any state
satisfying it. -/
theorem registry_invariant (env : HostEnv) (s : ManagerState) (ev : MgrEvent)
    (h : mgrInv s) :
    mgrInv mgrInitial ∧ mgrInv ((mgrStep env s ev).1) := by
  refine ⟨fun _ => rfl, ?_⟩
  cases ev with
  | observe e cb =>
      simp only [mgrStep, observeOp]
      by_cases hobs : s.observer
      · simp [hobs, mgrInv]
      · by_cases hio : env.ioAvailable
        · simp [hobs, createObserver, hio, mgrInv]
        · simpa [hobs, createObserver, hio] using h
  | unobserve e =>
      by_cases hobs : s.observer
      · simp [mgrStep, unobserveOp, hobs, mgrInv]
      · simpa [mgrStep, unobserveOp, hobs] using h
  | disconnect =>
      by_cases hobs : s.observer
      · simp [mgrStep, disconnectOp, hobs, mgrInv]
      · simpa [mgrStep, disconnectOp, hobs] using h
  | dispatch batch => simpa [mgrStep] using h

/-- C9 witness at a populated state and an `unobserve` step. -/
theorem registry_invariant_witness :
    mgrInv mgrInitial ∧
      mgrInv ((mgrStep ⟨true⟩ ⟨true, [(0, 1)]⟩ (MgrEvent.unobserve 0)).1) :=
  registry_invariant ⟨true⟩ ⟨true, [(0, 1)]⟩ (MgrEvent.unobserve 0) (by simp [mgrInv])

end LazyLoad

namespace LazyVideo

/-- React state of the canonical `LazyVideo` variant
(`src/src/components/LazyVideo.tsx`, second component in the file, lines
477-864), together with the `savedTimeRef` mutable ref. -/
structure LVState where
  shouldLoad : Bool
  isIntersecting : Bool
  reducedMotion : Bool
  isMuted : Bool
  savedTime : Rat

/-- Mount-time state of the canonical variant (lines 493-499): both
`shouldLoad` and `isIntersecting` are initialised with `useState(true)`
regardless of the `priority` prop ("Default to true - load immediately"),
`reducedMotion` false, `isMuted` true, `savedTimeRef` 0. The `priority`
argument is deliberately unused, mirroring the source. -/
def lvInitialState (priority : Bool) : LVState :=
  { shouldLoad := true, isIntersecting := true, reducedMotion := false,
    isMuted := true, savedTime := 0 }

/-- In the rendered tree the `<video src={videoUrl}>` element exists
exactly when `shouldLoad` holds (line 817: `{shouldLoad && (<video …>)}`),
so the media source is attached iff `shouldLoad`. -/
def sourceAttached (s : LVState) : Bool := s.shouldLoad

/-- C1 counterexample: a unit created with `priority = false` is not
`Dormant` at mount — the canonical variant's mount-time default already
has `shouldLoad = true` (source attached) before any observation-registry
notification, contradicting the claim that `shouldLoad = false` until the
registry reports visibility. -/
theorem lazyVideo_mount_not_dormant :
    sourceAttached (lvInitialState false) = true ∧
      ¬ ((lvInitialState false).shouldLoad = false) := by
  refine ⟨rfl, ?_⟩
  intro h
  cases h

/-- React state of the `LazyVideo` variant of `src/unnamed/part_000`
(lines 25-234). -/
structure P0State where
  shouldLoad : Bool
  isIntersecting : Bool
  reducedMotion : Bool

/-- Mount-time state of the part_000 variant (lines 36-38):
`useState(priority)` for both `shouldLoad` and `isIntersecting`. -/
def p0Initial (priority : Bool) : P0State :=
  { shouldLoad := priority, isIntersecting := priority, reducedMotion := false }

/-- Events that can reach the part_000 component state. Media-element side
effects of the registry callback (saving the time, pausing) act on the
video element, not on this state, and are modelled separately. -/
inductive P0Event where
  | motionChange (m : Bool)
  | intersectionEffect
  | notify (isIntersecting : Bool)

/-- One state transition of the part_000 variant:
`motionChange` is the `prefers-reduced-motion` listener (lines 57-62),
`intersectionEffect` the effect body for priority/reduced-motion units
(lines 68-73), and `notify` the registry callback (lines 80-98). -/
def p0Step (priority : Bool) (s : P0State) : P0Event → P0State
  | P0Event.motionChange m =>
      let s' := { s with reducedMotion := m }
      if m then { s' with shouldLoad := true } else s'
  | P0Event.intersectionEffect =>
      if priority || s.reducedMotion then
        { s with shouldLoad := true, isIntersecting := true }
      else s
  | P0Event.notify true => { s with isIntersecting := true, shouldLoad := true }
  | P0Event.notify false => { s with isIntersecting := false, shouldLoad := false }

/-- Run the part_000 component over a sequence of events. -/
def p0Run (priority : Bool) (s : P0State) (evs : List P0Event) : P0State :=
  evs.foldl (p0Step priority) s

/-- C1 (amended): in the part_000 variant a unit created with
`priority = false` stays Dormant (`shouldLoad = false`, no source
attached) from mount for as long as the registry has not reported it
intersecting and the reduced-motion preference has not switched on; the
canonical `src/src/components/LazyVideo.tsx` variant instead initialises
`shouldLoad` to `true` at mount for every unit, so the claim fails there. -/
theorem p0_non_priority_stays_dormant (evs : List P0Event)
    (hev : ∀ ev ∈ evs, ev ≠ P0Event.notify true ∧ ev ≠ P0Event.motionChange true) :
    (p0Run false (p0Initial false) evs).shouldLoad = false := by
  suffices h : ∀ (s : P0State), s.shouldLoad = false → s.reducedMotion = false →
      (∀ ev ∈ evs, ev ≠ P0Event.notify true ∧ ev ≠ P0Event.motionChange true) →
      (p0Run false s evs).shouldLoad = false by
    exact h (p0Initial false) rfl rfl hev
  clear hev
  induction evs with
  | nil =>
      intro s hsl _ _
      simpa [p0Run] using hsl
  | cons ev rest ih =>
      intro s hsl hrm hev
      have hstep : (p0Step false s ev).shouldLoad = false ∧
          (p0Step false s ev).reducedMotion = false := by
        have hev0 := hev ev (by simp)
        cases ev with
        | motionChange m =>
            cases m with
            | true => exact absurd rfl hev0.2
            | false => simp [p0Step, hsl, hrm]
        | intersectionEffect => simp [p0Step, hrm, hsl]
        | notify b =>
            cases b with
            | true => exact absurd rfl hev0.1
            | false => simp [p0Step, hrm]
      have : p0Run false s (ev :: rest) = p0Run false (p0Step false s ev) rest := by
        simp [p0Run]
      rw [this]
      exact ih (p0Step false s ev) hstep.1 hstep.2
        (fun ev' hm => hev ev' (by simp [hm]))

/-- C1 witness: a concrete event trace with an effect run, a
not-intersecting notification and a motion-preference change to off. -/
theorem p0_non_priority_stays_dormant_witness :
    (p0Run false (p0Initial false)
      [P0Event.intersectionEffect, P0Event.notify false,
        P0Event.motionChange false]).shouldLoad = false :=
  p0_non_priority_stays_dormant
    [P0Event.intersectionEffect, P0Event.notify false, P0Event.motionChange false]
    (by intro ev hm
        simp only [List.mem_cons, List.not_mem_nil, or_false] at hm
        rcases hm with rfl | rfl | rfl <;> exact ⟨by simp, by simp⟩)

end LazyVideo

namespace LazyVideo

/-- The canonical variant's registry callback
(`src/src/components/LazyVideo.tsx` lines 624-645). `pauseSem` is the
host's `HTMLMediaElement.pause()` as a transformation of the element's
`currentTime` (some hosts reset the position on pause — the very hazard
the ordering is meant to avoid); `video` is `videoRef.current`'s
`currentTime`, or `none` when the ref is null. Returns the video's
`currentTime` after the handler together with the new component state. -/
def canonicalIntersectionCallback (priority reducedMotion : Bool)
    (pauseSem : Rat → Rat) (video : Option Rat) (entryIsIntersecting : Bool)
    (s : LVState) : Option Rat × LVState :=
  if entryIsIntersecting then
    (video, { s with isIntersecting := true, shouldLoad := true })
  else
    let s1 := { s with isIntersecting := false }
    match video with
    | some t =>
        let saved := t
        let t1 := pauseSem t
        let s2 := { s1 with savedTime := saved }
        let s3 :=
          if !priority && !reducedMotion then { s2 with shouldLoad := false } else s2
        (some t1, s3)
    | none =>
        let s3 :=
          if !priority && !reducedMotion then { s1 with shouldLoad := false } else s1
        (none, s3)

/-- C5: on every visible → not-visible transition handled by the registry
callback, the position saved into `savedTimeRef` is the `currentTime` read
strictly before `pause()` was issued — for every possible pause semantics,
including one that resets the position — and the pause is applied to that
pre-read position. -/
theorem save_before_pause (priority reducedMotion : Bool) (pauseSem : Rat → Rat)
    (t : Rat) (s : LVState) :
    (canonicalIntersectionCallback priority reducedMotion pauseSem (some t) false s).2.savedTime
        = t
    ∧ (canonicalIntersectionCallback priority reducedMotion pauseSem (some t) false s).1
        = some (pauseSem t) := by
  cases priority <;> cases reducedMotion <;>
    simp [canonicalIntersectionCallback]

/-- Host-visible state of a native `<video>` element: its playback
position and `readyState` (0 = HAVE_NOTHING … 4 = HAVE_ENOUGH_DATA). -/
structure NativeVideo where
  currentTime : Rat
  readyState : Nat

/-- Host-media commands issued by the play/resume effects, with the
element's `readyState` recorded at the moment a seek is issued. -/
inductive MediaAction where
  | saveTime (t : Rat)
  | pause
  | setMutedZeroVolume
  | seek (t : Rat) (readyStateAtSeek : Nat)
  | play
  | addCanPlayThroughListener
deriving DecidableEq

/-- `restoreAndPlay` of the canonical variant (lines 740-772): re-assert
mute, seek to the saved position only when it is positive and
`video.readyState >= 2`, then request play when autoplay is enabled.
`mutedProp` is `props.muted !== false`, `autoPlayProp` is
`props.autoPlay !== false`; the muted-retry continuation of the rejected
play promise issues only another `play`, never a seek, and is folded into
the single `play` command. -/
def restoreAndPlay (mutedProp autoPlayProp : Bool) (saved : Rat)
    (v : NativeVideo) : List MediaAction :=
  (if mutedProp then [MediaAction.setMutedZeroVolume] else []) ++
  (if 0 < saved ∧ 2 ≤ v.readyState then [MediaAction.seek saved v.readyState] else []) ++
  (if autoPlayProp then [MediaAction.play] else [])

/-- The canonical play/pause/resume effect (lines 726-789): skip unless
loaded and motion allowed; when not intersecting, save the position and
pause; when intersecting, run `restoreAndPlay` immediately only if
`readyState >= 3` (HAVE_FUTURE_DATA), otherwise register a
`canplaythrough` listener and wait. -/
def canonicalPlayEffect (mutedProp autoPlayProp : Bool)
    (isIntersecting shouldLoad reducedMotion : Bool) (saved : Rat)
    (v : NativeVideo) : List MediaAction :=
  if !shouldLoad || reducedMotion then []
  else if !isIntersecting then [MediaAction.saveTime v.currentTime, MediaAction.pause]
  else if 3 ≤ v.readyState then restoreAndPlay mutedProp autoPlayProp saved v
  else [MediaAction.addCanPlayThroughListener]

/-- The `canplaythrough` handler registered by the effect (lines 779-783):
it runs `restoreAndPlay` against the element state at event time. -/
def onCanPlayThrough (mutedProp autoPlayProp : Bool) (saved : Rat)
    (v : NativeVideo) : List MediaAction :=
  restoreAndPlay mutedProp autoPlayProp saved v

/-- Seeks emitted by `restoreAndPlay` carry the element's readyState and
are gated on it. -/
theorem restoreAndPlay_seek_gated (mutedProp autoPlayProp : Bool) (saved t : Rat)
    (v : NativeVideo) (r : Nat)
    (h : MediaAction.seek t r ∈ restoreAndPlay mutedProp autoPlayProp saved v) :
    2 ≤ r ∧ r = v.readyState := by
  simp only [restoreAndPlay, List.mem_append] at h
  rcases h with (h | h) | h
  · cases mutedProp <;> simp at h
  · by_cases hg : 0 < saved ∧ 2 ≤ v.readyState
    · rw [if_pos hg] at h
      simp only [List.mem_singleton] at h
      obtain ⟨-, rfl⟩ := MediaAction.seek.inj h
      exact ⟨hg.2, rfl⟩
    · simp [hg] at h
  · cases autoPlayProp <;> simp at h

/-- C6 (amended): in the canonical `LazyVideo` variant a restore seek is
issued only at a readyState of at least 2 (a readiness state supporting
seeking), both on the immediate path — which additionally requires
readyState ≥ 3 before `restoreAndPlay` runs at all — and on the deferred
`canplaythrough` path; and when the element is not yet ready
(readyState < 3) the intersecting effect issues no seek but registers the
readiness listener and waits. The part_000 variant violates the original
claim by seeking immediately without any readiness check. -/
theorem canonical_seek_only_after_readiness (mutedProp autoPlayProp : Bool)
    (saved t : Rat) (v : NativeVideo) (r : Nat)
    (h : MediaAction.seek t r ∈
        canonicalPlayEffect mutedProp autoPlayProp true true false saved v
      ∨ MediaAction.seek t r ∈ onCanPlayThrough mutedProp autoPlayProp saved v) :
    2 ≤ r ∧ r = v.readyState
    ∧ (v.readyState < 3 →
        canonicalPlayEffect mutedProp autoPlayProp true true false saved v =
          [MediaAction.addCanPlayThroughListener]) := by
  have hwait : v.readyState < 3 →
      canonicalPlayEffect mutedProp autoPlayProp true true false saved v =
        [MediaAction.addCanPlayThroughListener] := by
    intro hr
    simp [canonicalPlayEffect, Nat.not_le.mpr hr]
  rcases h with h | h
  · by_cases hr : 3 ≤ v.readyState
    · simp only [canonicalPlayEffect, hr, if_true] at h
      have := restoreAndPlay_seek_gated mutedProp autoPlayProp saved t v r (by
        simpa using h)
      exact ⟨this.1, this.2, hwait⟩
    · rw [hwait (Nat.not_le.mp hr)] at h
      simp at h
  · have := restoreAndPlay_seek_gated mutedProp autoPlayProp saved t v r h
    exact ⟨this.1, this.2, hwait⟩

/-- C6 witness: a `canplaythrough` event at readyState 4 with a positive
saved position yields a seek, necessarily gated at readiness ≥ 2. -/
theorem canonical_seek_only_after_readiness_witness :
    MediaAction.seek 5 4 ∈ onCanPlayThrough true true 5 ⟨0, 4⟩ ∧
    (2 ≤ 4 ∧ 4 = (⟨(0 : Rat), 4⟩ : NativeVideo).readyState
      ∧ ((⟨(0 : Rat), 4⟩ : NativeVideo).readyState < 3 →
          canonicalPlayEffect true true true true false 5 ⟨0, 4⟩ =
            [MediaAction.addCanPlayThroughListener])) :=
  ⟨by decide,
    canonical_seek_only_after_readiness true true 5 5 ⟨0, 4⟩ 4 (Or.inr (by decide))⟩

/-- The part_000 play/resume effect (`src/unnamed/part_000` lines
154-181): when the unit is intersecting, loaded and motion is allowed, it
restores the saved position immediately — guarded only by the position
differing by more than 0.1s — with no readyState check, then requests
play. -/
def p0PlayEffect (autoPlayProp isIntersecting shouldLoad reducedMotion : Bool)
    (v : NativeVideo) (saved : Rat) : List MediaAction :=
  if !isIntersecting || !shouldLoad || reducedMotion then []
  else
    (if 0 < saved ∧ (1 : Rat) / 10 < |v.currentTime - saved| then
      [MediaAction.seek saved v.readyState]
    else []) ++
    (if autoPlayProp then [MediaAction.play] else [])

/-- C6 counterexample: a part_000 unit re-entering the viewport with saved
position 5 and a completely unready element (readyState 0, below any
readiness threshold) issues the seek immediately instead of waiting for a
readiness event — the claim's "only after a readiness signal, never
before" fails on this variant. -/
theorem p0_seeks_before_readiness :
    p0PlayEffect true true true false ⟨0, 0⟩ 5 =
      [MediaAction.seek 5 0, MediaAction.play] := by
  norm_num [p0PlayEffect]

end LazyVideo

namespace HashScroll

/-- Whether `window.history.replaceState` throws in the host (the `catch`
branch of `src/src/lib/hash-scroll.ts` lines 239-243 exists precisely for
such hosts). -/
structure HistoryEnv where
  replaceStateThrows : Bool

/-- URL-mutating operations the synchroniser can perform:
`replaceState` rewrites the current history entry in place, while
assigning `window.location.hash` navigates and pushes a new history entry
when the fragment differs. -/
inductive UrlAction where
  | replaceState (url : Str)
  | setLocationHash (hash : Str)
deriving DecidableEq

/-- Only `replaceState` is history-replacing; a `location.hash` assignment
to a differing fragment creates a new navigation history entry. -/
def isHistoryReplacing : UrlAction → Bool
  | UrlAction.replaceState _ => true
  | UrlAction.setLocationHash _ => false

/-- The hash-update step of `updateActiveSectionHash`
(`src/src/lib/hash-scroll.ts` lines 148-149 and 225-245), taking the
already-computed winning section (its id, `none` when no section won or
the winner has no id): bail out while a programmatic scroll is in flight;
otherwise, when the winner's fragment differs from the current one, try
`replaceState` with the preserved pathname and search, falling back to a
direct `location.hash` assignment when `replaceState` throws; when the
fragments are equal, perform no URL update at all. -/
def applyHashUpdate (env : HistoryEnv) (isUpdatingHash : Bool)
    (activeId : Option Str) (currentHash pathname search : Str) : List UrlAction :=
  if isUpdatingHash then []
  else
    match activeId with
    | some id =>
        if id ≠ [] then
          let newHash := '#' :: id
          if currentHash ≠ newHash then
            if env.replaceStateThrows then [UrlAction.setLocationHash newHash]
            else [UrlAction.replaceState (pathname ++ search ++ newHash)]
          else []
        else []
    | none => []

/-- C8 counterexample: in a host where `replaceState` throws, the
synchroniser changes the fragment through a `location.hash` assignment —
an operation that is not history-replacing and creates a new navigation
history entry — contradicting the claim that the fragment changes only
through a history-replacing operation. -/
theorem hash_update_fallback_pushes_history :
    applyHashUpdate ⟨true⟩ false (some (("b").data)) (("#a").data) (("/deck").data) [] =
      [UrlAction.setLocationHash (("#b").data)]
    ∧ (applyHashUpdate ⟨true⟩ false (some (("b").data)) (("#a").data)
        (("/deck").data) []).all isHistoryReplacing = false := by
  refine ⟨by decide, by decide⟩

/-- C8 (amended): the synchroniser updates the URL only when the winning
section's fragment differs from the current one (and never during a
programmatic scroll); when they are equal it performs no URL operation at
all; when `replaceState` is operational the update is exactly one
history-replacing `replaceState`; but when `replaceState` throws, the code
falls back to assigning `location.hash`, which does create a new
navigation history entry. -/
theorem hash_update_spec (env : HistoryEnv) (id currentHash pathname search : Str) :
    applyHashUpdate env true (some id) currentHash pathname search = []
    ∧ (currentHash = '#' :: id →
        applyHashUpdate env false (some id) currentHash pathname search = [])
    ∧ (env.replaceStateThrows = false →
        (applyHashUpdate env false (some id) currentHash pathname search).all
          isHistoryReplacing = true)
    ∧ (env.replaceStateThrows = true → id ≠ [] → currentHash ≠ '#' :: id →
        applyHashUpdate env false (some id) currentHash pathname search =
          [UrlAction.setLocationHash ('#' :: id)]) := by
  refine ⟨by simp [applyHashUpdate], ?_, ?_, ?_⟩
  · intro heq
    by_cases hid : id = [] <;> simp [applyHashUpdate, hid, heq]
  · intro hrs
    by_cases hid : id = []
    · simp [applyHashUpdate, hid]
    · by_cases hcur : currentHash = '#' :: id <;>
        simp [applyHashUpdate, hid, hcur, hrs, isHistoryReplacing]
  · intro hrs hid hcur
    simp [applyHashUpdate, hid, hcur, hrs]

/-- C8 witness: with `replaceState` operational, a differing winner
produces exactly one history-replacing update, and an equal winner
produces none. -/
theorem hash_update_spec_witness :
    applyHashUpdate ⟨false⟩ true (some (("b").data)) (("#a").data) (("/deck").data) [] = []
    ∧ ((("#a").data : Str) = '#' :: ("b").data →
        applyHashUpdate ⟨false⟩ false (some (("b").data)) (("#a").data)
          (("/deck").data) [] = [])
    ∧ ((⟨false⟩ : HistoryEnv).replaceStateThrows = false →
        (applyHashUpdate ⟨false⟩ false (some (("b").data)) (("#a").data)
          (("/deck").data) []).all isHistoryReplacing = true)
    ∧ ((⟨false⟩ : HistoryEnv).replaceStateThrows = true → (("b").data : Str) ≠ [] →
        (("#a").data : Str) ≠ '#' :: ("b").data →
        applyHashUpdate ⟨false⟩ false (some (("b").data)) (("#a").data)
          (("/deck").data) [] = [UrlAction.setLocationHash ('#' :: ("b").data)]) :=
  hash_update_spec ⟨false⟩ (("b").data) (("#a").data) (("/deck").data) []

end HashScroll
